import Mathlib

/-!
Verification development for the ApertureDB synchronization engine of
`io_storages/aperturedb/models.py`: the paginated key scanner (`iterkeys`),
the batched annotation reader and its single-batch cache
(`_get_bbox_annotations`), the rectangle-fragment merger (`AnnotationBBox`),
the response-status computation (`_response_status`) and the accepted-status
checks of the save and delete paths.

Python dicts are embedded as insertion-ordered association lists, Python
numbers as exact rationals (`Rat`) or integers, Python exceptions as
`Except String`, and the external store as explicit oracles.
-/

/-- Association-list lookup, the embedding of Python `d[k]` / `k in d`
(first binding wins; the embedded dicts keep keys unique). -/
def alookup {K V : Type} [DecidableEq K] : List (K × V) → K → Option V
  | [], _ => none
  | (k2, v) :: rest, k => if k2 = k then some v else alookup rest k

/-- Embedding of Python `d[k] = v`: replace the value in place when the key
is present (Python dicts hold each key once, so replacing the first
occurrence is exact), append a new binding otherwise. -/
def dictInsert {K V : Type} [DecidableEq K] (m : List (K × V)) (k : K) (v : V) :
    List (K × V) :=
  match m with
  | [] => [(k, v)]
  | (k1, v1) :: rest =>
    if k1 = k then (k, v) :: rest else (k1, v1) :: dictInsert rest k v

/-- Embedding of Python `base.update(upd)`: fold `dictInsert` over the
update dict, so colliding keys take the updated value. -/
def dictUpdate {K V : Type} [DecidableEq K] (base upd : List (K × V)) :
    List (K × V) :=
  upd.foldl (fun m p => dictInsert m p.1 p.2) base

/-- First-some choice on options, used to state lookup laws of `dictUpdate`. -/
def oalt {V : Type} : Option V → Option V → Option V
  | some v, _ => some v
  | none, o => o

/-- Boolean test for the error side of `Except`. -/
def isError {E A : Type} : Except E A → Bool
  | .error _ => true
  | .ok _ => false

/-- Embedding of Python `int()` on an exact rational: truncation toward
zero, as in `int(x * width / 100)` of `AnnotationBBox.__init__`. -/
def pytrunc (q : Rat) : Int := if 0 ≤ q then ⌊q⌋ else -⌊-q⌋

/-- Embedding of Python `s.startswith(p)`, character-list based so that it
evaluates in the kernel. -/
def strStartsWith (s p : String) : Bool := List.isPrefixOf p.data s.data

/-- Pixel-space rectangle, the `self.rect` dict of `AnnotationBBox`. -/
structure PixelRect where
  x : Int
  y : Int
  width : Int
  height : Int
deriving DecidableEq, Repr

/-- The `value` sub-dict of a rectangle annotation fragment; `none` fields
embed absent dict keys. -/
structure RectValue where
  vx : Option Rat
  vy : Option Rat
  vwidth : Option Rat
  vheight : Option Rat
  vrotation : Option Rat
  rectanglelabels : Option (List String)
  text : Option (List String)
deriving DecidableEq, Repr

/-- One annotation-result fragment as consumed by the merge loop of
`save_annotation` (lines 401-411): an optional `type`, the `id`, and the
fields probed by `AnnotationBBox.__init__`; `none` embeds an absent key. -/
structure Fragment where
  ftype : Option String
  fid : String
  original_width : Option Rat
  original_height : Option Rat
  image_rotation : Option Rat
  value : Option RectValue
deriving DecidableEq, Repr

/-- The canonical bounding box built by `AnnotationBBox.__init__` and
extended by `AnnotationBBox.merge`. -/
structure AnnotationBBox where
  original_width : Rat
  original_height : Rat
  rect : PixelRect
  labels : List String
  text : List String
deriving DecidableEq, Repr

/-- Embedding of `AnnotationBBox._get`: a present field or a
`ValidationError` naming the missing key. -/
def getField {A : Type} (o : Option A) (key descr : String) : Except String A :=
  match o with
  | some v => .ok v
  | none => .error (descr ++ " must include " ++ key)

/-- Embedding of `AnnotationBBox.__init__` (lines 350-368): probe the
required fields in source order, reject non-zero rotations, compute the
pixel rectangle by scaling each normalized coordinate by the matching
original dimension over 100 and truncating, default `rectanglelabels` and
`text` to `[]`, and reject more than one label. -/
def AnnotationBBox.ofFragment (f : Fragment) : Except String AnnotationBBox :=
  match getField f.original_width "original_width" "rectangle annotation" with
  | .error e => .error e
  | .ok ow =>
  match getField f.original_height "original_height" "rectangle annotation" with
  | .error e => .error e
  | .ok oh =>
  match getField f.image_rotation "image_rotation" "rectangle annotation" with
  | .error e => .error e
  | .ok irot =>
  if irot ≠ 0 then .error "Annotation must have 0 image_rotation" else
  match getField f.value "value" "rectangle annotation" with
  | .error e => .error e
  | .ok val =>
  match getField val.vx "x" "annotation value" with
  | .error e => .error e
  | .ok x =>
  match getField val.vy "y" "annotation value" with
  | .error e => .error e
  | .ok y =>
  match getField val.vwidth "width" "annotation value" with
  | .error e => .error e
  | .ok w =>
  match getField val.vheight "height" "annotation value" with
  | .error e => .error e
  | .ok h =>
  let rect : PixelRect :=
    { x := pytrunc (x * ow / 100), y := pytrunc (y * oh / 100),
      width := pytrunc (w * ow / 100), height := pytrunc (h * oh / 100) }
  match getField val.vrotation "rotation" "annotation value" with
  | .error e => .error e
  | .ok vrot =>
  if vrot ≠ 0 then .error "annotation value must have 0 rotation" else
  let labels := (val.rectanglelabels).getD []
  if labels.length > 1 then
    .error "rectangle annotation can have at most one label"
  else
    .ok { original_width := ow, original_height := oh, rect := rect,
          labels := labels, text := (val.text).getD [] }

/-- Embedding of `AnnotationBBox.merge` on two already-validated boxes
(lines 381-391): each `_attr_must_match` call is one mismatch test in
source order, then labels and text are concatenated with the at-most-one
label check. -/
def AnnotationBBox.mergeBoxes (a b : AnnotationBBox) : Except String AnnotationBBox :=
  if a.original_width ≠ b.original_width then
    .error "Annotations have mismatched original_width"
  else if a.original_height ≠ b.original_height then
    .error "Annotations have mismatched original_height"
  else if a.rect.x ≠ b.rect.x then .error "Annotations have mismatched x"
  else if a.rect.y ≠ b.rect.y then .error "Annotations have mismatched y"
  else if a.rect.width ≠ b.rect.width then
    .error "Annotations have mismatched width"
  else if a.rect.height ≠ b.rect.height then
    .error "Annotations have mismatched height"
  else
    let labels := a.labels ++ b.labels
    if labels.length > 1 then
      .error "rectangle annotation can have at most one label"
    else
      .ok { original_width := a.original_width,
            original_height := a.original_height, rect := a.rect,
            labels := labels, text := a.text ++ b.text }

/-- Embedding of `AnnotationBBox.merge` called on a raw fragment, as the
merge loop does: the fragment is first validated by the constructor. -/
def AnnotationBBox.merge (a : AnnotationBBox) (f : Fragment) :
    Except String AnnotationBBox :=
  match AnnotationBBox.ofFragment f with
  | .error e => .error e
  | .ok b => a.mergeBoxes b

/-- One iteration of the merge loop of `save_annotation` (lines 404-411):
skip fragments without a `type`; merge into an existing entry whenever the
id is already bound (regardless of the fragment's type); otherwise create
an entry only for rectangle-typed fragments. -/
def mergeStep (m : List (String × AnnotationBBox)) (f : Fragment) :
    Except String (List (String × AnnotationBBox)) :=
  match f.ftype with
  | none => .ok m
  | some t =>
    match alookup m f.fid with
    | some b =>
      match b.merge f with
      | .error e => .error e
      | .ok b2 => .ok (dictInsert m f.fid b2)
    | none =>
      if strStartsWith t "rectangle" then
        match AnnotationBBox.ofFragment f with
        | .error e => .error e
        | .ok b => .ok (m ++ [(f.fid, b)])
      else .ok m

/-- The whole merge loop of `save_annotation`: fold `mergeStep` over the
fragments in encounter order, starting from the empty `bbox_map`. -/
def mergeRegions (frags : List Fragment) :
    Except String (List (String × AnnotationBBox)) :=
  frags.foldlM mergeStep []

/-- JSON-like store responses and constraint values: numbers, strings,
arrays and objects (insertion-ordered key lists, as Python dicts). -/
inductive JVal where
  | num (n : Int)
  | str (s : String)
  | arr (elems : List JVal)
  | obj (fields : List (String × JVal))

/-- Left fold of `max` over a non-empty integer list, the value Python
`max` computes on an all-integer list. -/
def intMaxList (n : Int) : List Int → Int
  | [] => n
  | m :: rest => intMaxList (max n m) rest

/-- Embedding of Python `max` over the recursively computed statuses of a
list response: an empty sequence raises `ValueError`; a one-element list
returns its element unchanged; otherwise every element must be an integer
(comparing `None` raises `TypeError`) and the maximum is returned. -/
def pymax (ss : List (Option Int)) : Except String (Option Int) :=
  match ss with
  | [] => .error "max() arg is an empty sequence"
  | [s] => .ok s
  | s :: rest =>
    match s, rest.mapM id with
    | some n, some ns => .ok (some (intMaxList n ns))
    | _, _ => .error "TypeError: cannot compare NoneType"

mutual

/-- Embedding of `ApertureDBStorageMixin._response_status` (lines 55-62):
a list response is the Python `max` of its elements' statuses; a dict
response is its `"status"` value when that key is present, else the status
of its first value; anything else (and the empty dict) yields `None`.
Statuses on the wire are integers (spec section 6), so a non-numeric
`"status"` value is rejected rather than propagated. -/
def response_status : JVal → Except String (Option Int)
  | .num _ => .ok none
  | .str _ => .ok none
  | .arr elems =>
    match response_status_list elems with
    | .error e => .error e
    | .ok ss => pymax ss
  | .obj fields =>
    match alookup fields "status" with
    | some (.num n) => .ok (some n)
    | some _ => .error "non-integer status value"
    | none => response_status_first fields

/-- Status of the first value of a dict response without a `"status"` key:
Python's `for val in response.values(): return ...` returns on the first
value, and falls through to `None` for an empty dict. -/
def response_status_first : List (String × JVal) → Except String (Option Int)
  | [] => .ok none
  | (_, v) :: _ => response_status v

/-- Statuses of the elements of a list response, in order; the first
element whose status computation raises aborts the whole list, as the
Python list comprehension does. -/
def response_status_list : List JVal → Except String (List (Option Int))
  | [] => .ok []
  | v :: rest =>
    match response_status v with
    | .error e => .error e
    | .ok s =>
      match response_status_list rest with
      | .error e => .error e
      | .ok ss => .ok (s :: ss)

end

/-- The accepted-status check of the `save_annotation` mutation query
(lines 537-541): status 0 or 2 is success, anything else (including a
`None` status) raises. -/
def save_status_check (res : JVal) : Except String Unit :=
  match response_status res with
  | .error e => .error e
  | .ok s =>
    if s = some 0 ∨ s = some 2 then .ok ()
    else .error "Error saving annotation data to ApertureDB"

/-- The accepted-status check of the `delete_annotation` query (lines
562-566): same accepted set as the save path. -/
def delete_status_check (res : JVal) : Except String Unit :=
  match response_status res with
  | .error e => .error e
  | .ok s =>
    if s = some 0 ∨ s = some 2 then .ok ()
    else .error "Error deleting annotation data from ApertureDB"

/-- The internal `FindImage` constraints of `iterkeys` (line 129):
`width > 0` and `height > 0`. -/
def internal_constraints : List (String × JVal) :=
  [("width", .arr [.str ">", .num 0]),
   ("height", .arr [.str ">", .num 0])]

/-- The constraints dict `iterkeys` sends with every page query (lines
124-135): the internal width/height constraints, updated in place with the
user-supplied constraint dict when one is configured. The dict is built
once before the loop, so every page of one scan carries this same value. -/
def iterkeys_constraints (user : Option (List (String × JVal))) :
    List (String × JVal) :=
  match user with
  | none => internal_constraints
  | some u => dictUpdate internal_constraints u

/-- Continuation test of the `iterkeys` loop,
`(not self.limit) or (offset < self.limit)`: a missing limit and a zero
limit are both falsy in Python, hence both mean an unbounded scan. -/
def scanCont (limit : Option Nat) (offset : Nat) : Bool :=
  match limit with
  | none => true
  | some l => l == 0 || decide (offset < l)

/-- Embedding of the `iterkeys` page loop (lines 137-153) over a store
holding the matching image keys in store order: each page query returns
the 100 keys at the current offset, an empty page ends the scan, and the
offset advances by the page size. -/
def scanFrom {K : Type} (store : List K) (limit : Option Nat) (offset : Nat) :
    List K :=
  if scanCont limit offset then
    let page := (store.drop offset).take 100
    if page.isEmpty then [] else page ++ scanFrom store limit (offset + 100)
  else []
termination_by store.length - offset
decreasing_by
  rename_i hpage
  have hlt : offset < store.length := by
    by_contra hge
    apply hpage
    show (List.take 100 (List.drop offset store)).isEmpty = true
    rw [List.drop_eq_nil_of_le (Nat.le_of_not_lt hge)]
    rfl
  omega

/-- One full call of `iterkeys`: the scan starts at offset 0. -/
def scanPages {K : Type} (store : List K) (limit : Option Nat) : List K :=
  scanFrom store limit 0

/-- The mutable read-path state of an import storage instance: the
single-batch annotation cache `_bbox_annotation_cache` and the most recent
scan batch `_last_iterkeys`; the empty list embeds a not-yet-set attribute
(membership tests agree). -/
structure ReaderState (K E : Type) where
  cache : List (K × E)
  lastKeys : List K
deriving DecidableEq, Repr

/-- Embedding of `_get_bbox_annotations_batch` under a total store oracle:
one combined query over `keys` returns, for each requested key, its
(annotations, predictions) entry for the given project. -/
def batchQuery {K E P : Type} (store : P → K → E) (pid : P) (keys : List K) :
    List (K × E) :=
  keys.map (fun k => (k, store pid k))

/-- Embedding of `_get_bbox_annotations` (lines 189-217), additionally
reporting the list of batched store queries issued (each query is its key
list): serve a cache hit without querying; for a key of the current scan
batch, rebuild the whole cache from one query over the entire batch and
answer from it; otherwise issue a batch-of-one query and answer it
directly, leaving the cache untouched. -/
def getAnnotations {K E P : Type} [DecidableEq K] (store : P → K → E) (pid : P)
    (s : ReaderState K E) (key : K) :
    Except String (E × ReaderState K E × List (List K)) :=
  match alookup s.cache key with
  | some e => .ok (e, s, [])
  | none =>
    if key ∈ s.lastKeys then
      let newCache := batchQuery store pid s.lastKeys
      match alookup newCache key with
      | some e => .ok (e, { cache := newCache, lastKeys := s.lastKeys }, [s.lastKeys])
      | none => .error "KeyError"
    else
      match batchQuery store pid [key] with
      | (_, e) :: _ => .ok (e, s, [[key]])
      | [] => .error "StopIteration"

lemma except_bind_ok {E A B : Type} (a : A) (f : A → Except E B) :
    (Except.ok a >>= f) = f a := rfl

lemma except_bind_error {E A B : Type} (e : E) (f : A → Except E B) :
    ((Except.error e : Except E A) >>= f) = .error e := rfl

lemma ofFragment_eq (ty : Option String) (i : String) (ow oh irot x y w h vrot : Rat)
    (rls txt : Option (List String)) :
    AnnotationBBox.ofFragment
      ⟨ty, i, some ow, some oh, some irot, some ⟨some x, some y, some w, some h, some vrot, rls, txt⟩⟩ =
      (if irot ≠ 0 then .error "Annotation must have 0 image_rotation"
       else if vrot ≠ 0 then .error "annotation value must have 0 rotation"
       else if (rls.getD []).length > 1 then
         .error "rectangle annotation can have at most one label"
       else .ok { original_width := ow, original_height := oh,
                  rect := { x := pytrunc (x * ow / 100), y := pytrunc (y * oh / 100),
                            width := pytrunc (w * ow / 100), height := pytrunc (h * oh / 100) },
                  labels := rls.getD [], text := txt.getD [] }) := rfl

lemma ofFragment_ok_labels (f : Fragment) (b : AnnotationBBox)
    (h : AnnotationBBox.ofFragment f = .ok b) :
    b.labels.length ≤ 1 ∧ ∀ v, f.value = some v → b.labels = v.rectanglelabels.getD [] := by
  rcases f with ⟨ty, i, _ | ow, _ | oh, _ | ir, _ | ⟨_ | x, _ | y, _ | w, _ | hv, _ | vr, rls, txt⟩⟩ <;>
    simp only [AnnotationBBox.ofFragment, getField] at h <;>
    (try split_ifs at h) <;>
    try exact Except.noConfusion h
  injection h with h2
  subst h2
  refine ⟨?_, ?_⟩
  · show (rls.getD []).length ≤ 1
    omega
  · intro v hv2
    injection hv2 with hv3
    subst hv3
    rfl

/-- C2: merging two validated rectangle fragments that disagree on
original_width, original_height, or any pixel-rectangle field raises
ValidationError. -/
theorem merge_mismatch_raises (fa fb : Fragment) (a b : AnnotationBBox)
    (ha : AnnotationBBox.ofFragment fa = .ok a)
    (hb : AnnotationBBox.ofFragment fb = .ok b)
    (hmis : a.original_width ≠ b.original_width ∨
            a.original_height ≠ b.original_height ∨
            a.rect.x ≠ b.rect.x ∨ a.rect.y ≠ b.rect.y ∨
            a.rect.width ≠ b.rect.width ∨ a.rect.height ≠ b.rect.height) :
    ∃ e, a.merge fb = .error e := by
  have hm : a.merge fb = a.mergeBoxes b := by
    unfold AnnotationBBox.merge
    rw [hb]
  rw [hm]
  unfold AnnotationBBox.mergeBoxes
  by_cases h1 : a.original_width = b.original_width
  case neg => exact ⟨_, by rw [if_pos h1]⟩
  rw [if_neg (not_not_intro h1)]
  by_cases h2 : a.original_height = b.original_height
  case neg => exact ⟨_, by rw [if_pos h2]⟩
  rw [if_neg (not_not_intro h2)]
  by_cases h3 : a.rect.x = b.rect.x
  case neg => exact ⟨_, by rw [if_pos h3]⟩
  rw [if_neg (not_not_intro h3)]
  by_cases h4 : a.rect.y = b.rect.y
  case neg => exact ⟨_, by rw [if_pos h4]⟩
  rw [if_neg (not_not_intro h4)]
  by_cases h5 : a.rect.width = b.rect.width
  case neg => exact ⟨_, by rw [if_pos h5]⟩
  rw [if_neg (not_not_intro h5)]
  by_cases h6 : a.rect.height = b.rect.height
  case neg => exact ⟨_, by rw [if_pos h6]⟩
  exact absurd hmis (by push_neg; exact ⟨h1, h2, h3, h4, h5, h6⟩)

theorem merge_mismatch_raises_witness :
    ∃ e, AnnotationBBox.merge ⟨800, 600, ⟨80, 60, 400, 120⟩, ["cat"], []⟩
      ⟨some "rectanglelabels", "r1", some 800, some 600, some 0,
        some ⟨some 20, some 10, some 50, some 20, some 0, none, none⟩⟩ = .error e := by
  refine merge_mismatch_raises
    ⟨some "rectanglelabels", "r1", some 800, some 600, some 0,
      some ⟨some 10, some 10, some 50, some 20, some 0, some ["cat"], none⟩⟩
    _ _ ⟨800, 600, ⟨160, 60, 400, 120⟩, [], []⟩
    (by rw [ofFragment_eq]; norm_num [pytrunc])
    (by rw [ofFragment_eq]; norm_num [pytrunc])
    (by right; right; left; decide)

/-- C6: a validated rectangle fragment's pixel rectangle is each normalized
coordinate times the matching original dimension over 100, truncated toward
zero, and labels and text default to empty lists. -/
theorem pixel_rect_formula (ty : Option String) (i : String) (ow oh x y w h : Rat)
    (rls txt : Option (List String)) (hlab : (rls.getD []).length ≤ 1) :
    AnnotationBBox.ofFragment
      ⟨ty, i, some ow, some oh, some 0, some ⟨some x, some y, some w, some h, some 0, rls, txt⟩⟩ =
      .ok { original_width := ow, original_height := oh,
            rect := { x := pytrunc (x * ow / 100), y := pytrunc (y * oh / 100),
                      width := pytrunc (w * ow / 100), height := pytrunc (h * oh / 100) },
            labels := rls.getD [], text := txt.getD [] } := by
  rw [ofFragment_eq, if_neg (by norm_num), if_neg (by norm_num), if_neg (by omega)]

/-- C6 witness: an 800x600 image with region x 10, y 10, width 50,
height 20 and label cat yields the pixel rectangle 80, 60, 400, 120. -/
theorem pixel_rect_formula_witness :
    AnnotationBBox.ofFragment
      ⟨some "rectanglelabels", "r1", some 800, some 600, some 0,
        some ⟨some 10, some 10, some 50, some 20, some 0, some ["cat"], none⟩⟩ =
      .ok ⟨800, 600, ⟨80, 60, 400, 120⟩, ["cat"], []⟩ := by
  have h := pixel_rect_formula (some "rectanglelabels") "r1" 800 600 10 10 50 20
    (some ["cat"]) none (by decide)
  rw [h]
  norm_num [pytrunc]

/-- C7 counterexample: two fragments with identical identifier, dimensions
and pixel rectangle that differ only in their text lists do NOT always
merge successfully: when each carries one label the merge raises, because
the concatenated label list has two entries. -/
theorem merge_text_concat_cex :
    AnnotationBBox.ofFragment
      ⟨some "rectanglelabels", "r1", some 800, some 600, some 0,
        some ⟨some 10, some 10, some 50, some 20, some 0, some ["cat"], some ["a"]⟩⟩ =
      .ok ⟨800, 600, ⟨80, 60, 400, 120⟩, ["cat"], ["a"]⟩ ∧
    AnnotationBBox.ofFragment
      ⟨some "rectanglelabels", "r1", some 800, some 600, some 0,
        some ⟨some 10, some 10, some 50, some 20, some 0, some ["cat"], some ["b"]⟩⟩ =
      .ok ⟨800, 600, ⟨80, 60, 400, 120⟩, ["cat"], ["b"]⟩ ∧
    AnnotationBBox.merge ⟨800, 600, ⟨80, 60, 400, 120⟩, ["cat"], ["a"]⟩
      ⟨some "rectanglelabels", "r1", some 800, some 600, some 0,
        some ⟨some 10, some 10, some 50, some 20, some 0, some ["cat"], some ["b"]⟩⟩ =
      .error "rectangle annotation can have at most one label" := by
  have h1 : AnnotationBBox.ofFragment
      ⟨some "rectanglelabels", "r1", some 800, some 600, some 0,
        some ⟨some 10, some 10, some 50, some 20, some 0, some ["cat"], some ["a"]⟩⟩ =
      .ok ⟨800, 600, ⟨80, 60, 400, 120⟩, ["cat"], ["a"]⟩ := by
    rw [ofFragment_eq]
    norm_num [pytrunc]
  have h2 : AnnotationBBox.ofFragment
      ⟨some "rectanglelabels", "r1", some 800, some 600, some 0,
        some ⟨some 10, some 10, some 50, some 20, some 0, some ["cat"], some ["b"]⟩⟩ =
      .ok ⟨800, 600, ⟨80, 60, 400, 120⟩, ["cat"], ["b"]⟩ := by
    rw [ofFragment_eq]
    norm_num [pytrunc]
  refine ⟨h1, h2, ?_⟩
  unfold AnnotationBBox.merge
  rw [h2]
  rfl

/-- C7 amended: merging succeeds and concatenates text lists in encounter
order provided the two fragments also agree as required AND their label
lists together hold at most one label. -/
theorem merge_text_concat (fb : Fragment) (a b : AnnotationBBox)
    (hb : AnnotationBBox.ofFragment fb = .ok b)
    (hw : a.original_width = b.original_width)
    (hh : a.original_height = b.original_height)
    (hr : a.rect = b.rect)
    (hlab : (a.labels ++ b.labels).length ≤ 1) :
    a.merge fb = .ok { original_width := a.original_width,
                       original_height := a.original_height, rect := a.rect,
                       labels := a.labels ++ b.labels, text := a.text ++ b.text } := by
  have hm : a.merge fb = a.mergeBoxes b := by
    unfold AnnotationBBox.merge
    rw [hb]
  rw [hm]
  unfold AnnotationBBox.mergeBoxes
  rw [if_neg (not_not_intro hw), if_neg (not_not_intro hh),
    if_neg (not_not_intro (congrArg PixelRect.x hr)),
    if_neg (not_not_intro (congrArg PixelRect.y hr)),
    if_neg (not_not_intro (congrArg PixelRect.width hr)),
    if_neg (not_not_intro (congrArg PixelRect.height hr)),
    if_neg (by omega)]

/-- C7 witness: a labeled box and an unlabeled fragment with matching
rectangle and different text merge into one box with both texts. -/
theorem merge_text_concat_witness :
    AnnotationBBox.merge ⟨800, 600, ⟨80, 60, 400, 120⟩, ["cat"], ["a"]⟩
      ⟨some "textarea", "r1", some 800, some 600, some 0,
        some ⟨some 10, some 10, some 50, some 20, some 0, none, some ["b"]⟩⟩ =
      .ok ⟨800, 600, ⟨80, 60, 400, 120⟩, ["cat"], ["a", "b"]⟩ := by
  have hb : AnnotationBBox.ofFragment
      ⟨some "textarea", "r1", some 800, some 600, some 0,
        some ⟨some 10, some 10, some 50, some 20, some 0, none, some ["b"]⟩⟩ =
      .ok ⟨800, 600, ⟨80, 60, 400, 120⟩, [], ["b"]⟩ := by
    rw [ofFragment_eq]
    norm_num [pytrunc]
  exact merge_text_concat _ ⟨800, 600, ⟨80, 60, 400, 120⟩, ["cat"], ["a"]⟩ _ hb
    rfl rfl rfl (by decide)

lemma mem_dictInsert {K V : Type} [DecidableEq K] (m : List (K × V)) (k : K) (v : V)
    (p : K × V) (hp : p ∈ dictInsert m k v) : p = (k, v) ∨ p ∈ m := by
  induction m with
  | nil =>
    left
    simpa [dictInsert] using hp
  | cons q rest ih =>
    obtain ⟨k1, v1⟩ := q
    by_cases h1 : k1 = k
    · rw [show dictInsert ((k1, v1) :: rest) k v = (k, v) :: rest from by
        simp [dictInsert, h1]] at hp
      rcases List.mem_cons.mp hp with h | h
      · exact Or.inl h
      · exact Or.inr (List.mem_cons_of_mem _ h)
    · rw [show dictInsert ((k1, v1) :: rest) k v = (k1, v1) :: dictInsert rest k v from by
        simp [dictInsert, h1]] at hp
      rcases List.mem_cons.mp hp with h | h
      · exact Or.inr (h ▸ List.mem_cons_self _ _)
      · rcases ih h with h2 | h2
        · exact Or.inl h2
        · exact Or.inr (List.mem_cons_of_mem _ h2)

lemma mergeBoxes_ok_labels (a b c : AnnotationBBox) (h : a.mergeBoxes b = .ok c) :
    c.labels.length ≤ 1 := by
  unfold AnnotationBBox.mergeBoxes at h
  split_ifs at h <;> try exact Except.noConfusion h
  have h2 : ((if (a.labels ++ b.labels).length > 1 then
      Except.error "rectangle annotation can have at most one label"
    else
      Except.ok
        { original_width := a.original_width,
          original_height := a.original_height, rect := a.rect,
          labels := a.labels ++ b.labels, text := a.text ++ b.text }) :
        Except String AnnotationBBox) = Except.ok c := h
  by_cases hl : (a.labels ++ b.labels).length > 1
  · rw [if_pos hl] at h2
    exact Except.noConfusion h2
  · rw [if_neg hl] at h2
    injection h2 with h3
    subst h3
    show (a.labels ++ b.labels).length ≤ 1
    omega

lemma merge_ok_labels (a : AnnotationBBox) (f : Fragment) (c : AnnotationBBox)
    (h : a.merge f = .ok c) : c.labels.length ≤ 1 := by
  unfold AnnotationBBox.merge at h
  cases hof : AnnotationBBox.ofFragment f with
  | error e =>
    rw [hof] at h
    exact Except.noConfusion h
  | ok b =>
    rw [hof] at h
    exact mergeBoxes_ok_labels a b c h

lemma mergeStep_none (m : List (String × AnnotationBBox)) (f : Fragment)
    (hft : f.ftype = none) : mergeStep m f = .ok m := by
  unfold mergeStep
  rw [hft]

lemma mergeStep_merge (m : List (String × AnnotationBBox)) (f : Fragment)
    (t : String) (b : AnnotationBBox) (hft : f.ftype = some t)
    (halk : alookup m f.fid = some b) :
    mergeStep m f =
      (match b.merge f with
        | .error e => .error e
        | .ok b2 => .ok (dictInsert m f.fid b2)) := by
  unfold mergeStep
  rw [hft, halk]

lemma mergeStep_new (m : List (String × AnnotationBBox)) (f : Fragment)
    (t : String) (hft : f.ftype = some t) (halk : alookup m f.fid = none)
    (hsw : strStartsWith t "rectangle" = true) :
    mergeStep m f =
      (match AnnotationBBox.ofFragment f with
        | .error e => .error e
        | .ok b => .ok (m ++ [(f.fid, b)])) := by
  unfold mergeStep
  rw [hft, halk]
  show (if strStartsWith t "rectangle" = true then
      (match AnnotationBBox.ofFragment f with
        | Except.error e => Except.error e
        | Except.ok b => Except.ok (m ++ [(f.fid, b)]))
    else Except.ok m) = _
  rw [if_pos hsw]

lemma mergeStep_skip (m : List (String × AnnotationBBox)) (f : Fragment)
    (t : String) (hft : f.ftype = some t) (halk : alookup m f.fid = none)
    (hsw : strStartsWith t "rectangle" = false) : mergeStep m f = .ok m := by
  unfold mergeStep
  rw [hft, halk]
  show (if strStartsWith t "rectangle" = true then
      (match AnnotationBBox.ofFragment f with
        | Except.error e => Except.error e
        | Except.ok b => Except.ok (m ++ [(f.fid, b)]))
    else Except.ok m) = _
  rw [if_neg (by rw [hsw]; exact Bool.false_ne_true)]

lemma mergeStep_inv (m m2 : List (String × AnnotationBBox)) (f : Fragment)
    (hm : ∀ p ∈ m, p.2.labels.length ≤ 1) (h : mergeStep m f = .ok m2) :
    ∀ p ∈ m2, p.2.labels.length ≤ 1 := by
  cases hft : f.ftype with
  | none =>
    rw [mergeStep_none m f hft] at h
    injection h with h3
    subst h3
    exact hm
  | some t =>
    cases halk : alookup m f.fid with
    | some b =>
      rw [mergeStep_merge m f t b hft halk] at h
      cases hmg : b.merge f with
      | error e =>
        rw [hmg] at h
        exact Except.noConfusion (show (Except.error e : Except String _) = .ok m2 from h)
      | ok b2 =>
        rw [hmg] at h
        have h4 : (Except.ok (dictInsert m f.fid b2) : Except String _) = .ok m2 := h
        injection h4 with h3
        subst h3
        intro p hp
        rcases mem_dictInsert _ _ _ p hp with rfl | hpm
        · exact merge_ok_labels b f b2 hmg
        · exact hm p hpm
    | none =>
      cases hsw : strStartsWith t "rectangle" with
      | true =>
        rw [mergeStep_new m f t hft halk hsw] at h
        cases hof : AnnotationBBox.ofFragment f with
        | error e =>
          rw [hof] at h
          exact Except.noConfusion (show (Except.error e : Except String _) = .ok m2 from h)
        | ok b =>
          rw [hof] at h
          have h4 : (Except.ok (m ++ [(f.fid, b)]) : Except String _) = .ok m2 := h
          injection h4 with h3
          subst h3
          intro p hp
          rcases List.mem_append.mp hp with hpm | hpe
          · exact hm p hpm
          · have hpb : p = (f.fid, b) := by simpa using hpe
            rw [hpb]
            exact (ofFragment_ok_labels f b hof).1
      | false =>
        rw [mergeStep_skip m f t hft halk hsw] at h
        injection h with h3
        subst h3
        exact hm

lemma foldlM_mergeStep_inv (frags : List Fragment) :
    ∀ (m m2 : List (String × AnnotationBBox)),
      (∀ p ∈ m, p.2.labels.length ≤ 1) →
      List.foldlM mergeStep m frags = .ok m2 →
      ∀ p ∈ m2, p.2.labels.length ≤ 1 := by
  induction frags with
  | nil =>
    intro m m2 hm h
    rw [List.foldlM_nil] at h
    have h4 : (Except.ok m : Except String _) = .ok m2 := h
    injection h4 with h3
    subst h3
    exact hm
  | cons f rest ih =>
    intro m m2 hm h
    rw [List.foldlM_cons] at h
    cases hstep : mergeStep m f with
    | error e =>
      rw [hstep, except_bind_error] at h
      exact Except.noConfusion h
    | ok mid =>
      rw [hstep, except_bind_ok] at h
      exact ih mid m2 (mergeStep_inv m mid f hm hstep) h

/-- C8: a fragment whose rectanglelabels list has more than one entry never
validates; a merge whose accumulated label list would exceed one label
always raises; and every box in a successful merge of a fragment sequence
carries at most one label. -/
theorem at_most_one_label :
    (∀ (f : Fragment) (v : RectValue) (ls : List String),
        f.value = some v → v.rectanglelabels = some ls → ls.length > 1 →
        isError (AnnotationBBox.ofFragment f) = true) ∧
    (∀ a b : AnnotationBBox, (a.labels ++ b.labels).length > 1 →
        isError (a.mergeBoxes b) = true) ∧
    (∀ (frags : List Fragment) (m : List (String × AnnotationBBox))
        (p : String × AnnotationBBox),
        mergeRegions frags = .ok m → p ∈ m → p.2.labels.length ≤ 1) := by
  refine ⟨?_, ?_, ?_⟩
  · intro f v ls hv hls hlen
    cases hof : AnnotationBBox.ofFragment f with
    | error e => rfl
    | ok b =>
      exfalso
      obtain ⟨hle, hlab⟩ := ofFragment_ok_labels f b hof
      have hbl := hlab v hv
      rw [hls] at hbl
      simp only [Option.getD_some] at hbl
      rw [hbl] at hle
      omega
  · intro a b hlen
    unfold AnnotationBBox.mergeBoxes
    split_ifs <;> try rfl
    show isError (if (a.labels ++ b.labels).length > 1 then
        (Except.error "rectangle annotation can have at most one label" : Except String AnnotationBBox)
      else .ok { original_width := a.original_width, original_height := a.original_height,
                 rect := a.rect, labels := a.labels ++ b.labels,
                 text := a.text ++ b.text }) = true
    rw [if_pos hlen]
    rfl
  · intro frags m p hmr hp
    unfold mergeRegions at hmr
    exact foldlM_mergeStep_inv frags [] m (by simp) hmr p hp

/-- C8 witness: a two-label fragment is rejected, merging two one-label
boxes is rejected, and the box produced by merging a one-label fragment
sequence carries at most one label. -/
theorem at_most_one_label_witness :
    isError (AnnotationBBox.ofFragment
      ⟨some "rectanglelabels", "r2", some 800, some 600, some 0,
        some ⟨some 10, some 10, some 50, some 20, some 0, some ["cat", "dog"], none⟩⟩) = true ∧
    isError (AnnotationBBox.mergeBoxes ⟨800, 600, ⟨80, 60, 400, 120⟩, ["cat"], []⟩
      ⟨800, 600, ⟨80, 60, 400, 120⟩, ["dog"], []⟩) = true ∧
    (["cat"] : List String).length ≤ 1 := by
  refine ⟨at_most_one_label.1 _ _ ["cat", "dog"] rfl rfl (by decide),
    at_most_one_label.2.1 _ _ (by decide), ?_⟩
  have hof : AnnotationBBox.ofFragment
      ⟨some "rectanglelabels", "r2", some 800, some 600, some 0,
        some ⟨some 10, some 10, some 50, some 20, some 0, some ["cat"], none⟩⟩ =
      .ok ⟨800, 600, ⟨80, 60, 400, 120⟩, ["cat"], []⟩ := by
    rw [ofFragment_eq]
    norm_num [pytrunc]
  have hstep : mergeStep []
      ⟨some "rectanglelabels", "r2", some 800, some 600, some 0,
        some ⟨some 10, some 10, some 50, some 20, some 0, some ["cat"], none⟩⟩ =
      .ok [("r2", ⟨800, 600, ⟨80, 60, 400, 120⟩, ["cat"], []⟩)] := by
    have hred : mergeStep []
        ⟨some "rectanglelabels", "r2", some 800, some 600, some 0,
          some ⟨some 10, some 10, some 50, some 20, some 0, some ["cat"], none⟩⟩ =
        (match AnnotationBBox.ofFragment
            ⟨some "rectanglelabels", "r2", some 800, some 600, some 0,
              some ⟨some 10, some 10, some 50, some 20, some 0, some ["cat"], none⟩⟩ with
          | .error e => .error e
          | .ok b => .ok [("r2", b)]) := rfl
    rw [hred, hof]
  have hmr : mergeRegions
      [⟨some "rectanglelabels", "r2", some 800, some 600, some 0,
        some ⟨some 10, some 10, some 50, some 20, some 0, some ["cat"], none⟩⟩] =
      .ok [("r2", ⟨800, 600, ⟨80, 60, 400, 120⟩, ["cat"], []⟩)] := by
    unfold mergeRegions
    rw [List.foldlM_cons, hstep, except_bind_ok, List.foldlM_nil]
    rfl
  exact at_most_one_label.2.2 _ _ ("r2", ⟨800, 600, ⟨80, 60, 400, 120⟩, ["cat"], []⟩)
    hmr (by simp)

/-- C5 counterexample: a non-rectangle fragment (type choices) whose
identifier coincides with that of an earlier rectangle fragment is NOT
ignored: the merge loop merges it into the existing box, and validating it
raises, so the whole merge fails. -/
theorem nonrect_can_raise_cex :
    (⟨some "choices", "a", none, none, none, none⟩ : Fragment).ftype = some "choices" ∧
    strStartsWith "choices" "rectangle" = false ∧
    mergeRegions
      [⟨some "rectanglelabels", "a", some 800, some 600, some 0,
          some ⟨some 10, some 10, some 50, some 20, some 0, some ["cat"], none⟩⟩,
        ⟨some "choices", "a", none, none, none, none⟩] =
      .error "rectangle annotation must include original_width" := by
  refine ⟨rfl, by decide, ?_⟩
  have hof : AnnotationBBox.ofFragment
      ⟨some "rectanglelabels", "a", some 800, some 600, some 0,
        some ⟨some 10, some 10, some 50, some 20, some 0, some ["cat"], none⟩⟩ =
      .ok ⟨800, 600, ⟨80, 60, 400, 120⟩, ["cat"], []⟩ := by
    rw [ofFragment_eq]
    norm_num [pytrunc]
  have hstep : mergeStep []
      ⟨some "rectanglelabels", "a", some 800, some 600, some 0,
        some ⟨some 10, some 10, some 50, some 20, some 0, some ["cat"], none⟩⟩ =
      .ok [("a", ⟨800, 600, ⟨80, 60, 400, 120⟩, ["cat"], []⟩)] := by
    have hred : mergeStep []
        ⟨some "rectanglelabels", "a", some 800, some 600, some 0,
          some ⟨some 10, some 10, some 50, some 20, some 0, some ["cat"], none⟩⟩ =
        (match AnnotationBBox.ofFragment
            ⟨some "rectanglelabels", "a", some 800, some 600, some 0,
              some ⟨some 10, some 10, some 50, some 20, some 0, some ["cat"], none⟩⟩ with
          | .error e => .error e
          | .ok b => .ok [("a", b)]) := rfl
    rw [hred, hof]
  unfold mergeRegions
  rw [List.foldlM_cons, hstep, except_bind_ok, List.foldlM_cons]
  have hstep2 : mergeStep [("a", (⟨800, 600, ⟨80, 60, 400, 120⟩, ["cat"], []⟩ : AnnotationBBox))]
      ⟨some "choices", "a", none, none, none, none⟩ =
      .error "rectangle annotation must include original_width" := rfl
  rw [hstep2, except_bind_error]

/-- C5 amended: a fragment without a type is always skipped, and a
non-rectangle-typed fragment is skipped provided its identifier is not
already bound in the mapping; a colliding identifier is merged instead
(see the counterexample). -/
theorem nonrect_ignored (m : List (String × AnnotationBBox)) (f : Fragment) :
    (f.ftype = none → mergeStep m f = .ok m) ∧
    (∀ t, f.ftype = some t → strStartsWith t "rectangle" = false →
      alookup m f.fid = none → mergeStep m f = .ok m) :=
  ⟨fun h => mergeStep_none m f h,
   fun t ht hsw hlk => mergeStep_skip m f t ht hlk hsw⟩

/-- C5 witness: an untyped fragment and a choices-typed fragment with an
unbound identifier both leave the mapping unchanged. -/
theorem nonrect_ignored_witness :
    mergeStep [] ⟨none, "z", none, none, none, none⟩ = .ok [] ∧
    mergeStep [] ⟨some "choices", "z", none, none, none, none⟩ = .ok [] :=
  ⟨(nonrect_ignored [] ⟨none, "z", none, none, none, none⟩).1 rfl,
   (nonrect_ignored [] ⟨some "choices", "z", none, none, none, none⟩).2 "choices"
     rfl (by decide) rfl⟩

lemma alookup_batchQuery {K E P : Type} [DecidableEq K] (store : P → K → E)
    (pid : P) (keys : List K) (k : K) (hk : k ∈ keys) :
    alookup (batchQuery store pid keys) k = some (store pid k) := by
  induction keys with
  | nil => cases hk
  | cons k2 rest ih =>
    simp only [batchQuery, List.map_cons, alookup]
    by_cases hkk : k2 = k
    · rw [if_pos hkk, hkk]
    · rw [if_neg hkk]
      rcases List.mem_cons.mp hk with h | h
      · exact absurd h.symm hkk
      · exact ih h

/-- C1: a cache hit is answered without any store query and without state
change; a key of the current scan batch triggers exactly one batched query
over the entire batch, repopulates the cache with an entry for every key
of the batch, and answers from it; any other key is answered by one
batch-of-one query that leaves the state untouched. -/
theorem getAnnotations_cache_policy {K E P : Type} [DecidableEq K]
    (store : P → K → E) (pid : P) (s : ReaderState K E) (key : K) :
    (∀ e, alookup s.cache key = some e →
      getAnnotations store pid s key = .ok (e, s, [])) ∧
    (alookup s.cache key = none → key ∈ s.lastKeys →
      getAnnotations store pid s key =
        .ok (store pid key,
          { cache := batchQuery store pid s.lastKeys, lastKeys := s.lastKeys },
          [s.lastKeys]) ∧
      ∀ k2 ∈ s.lastKeys,
        alookup (batchQuery store pid s.lastKeys) k2 = some (store pid k2)) ∧
    (alookup s.cache key = none → key ∉ s.lastKeys →
      getAnnotations store pid s key = .ok (store pid key, s, [[key]])) := by
  refine ⟨?_, ?_, ?_⟩
  · intro e he
    unfold getAnnotations
    rw [he]
  · intro hc hm
    refine ⟨?_, fun k2 hk2 => alookup_batchQuery store pid s.lastKeys k2 hk2⟩
    unfold getAnnotations
    rw [hc]
    rw [if_pos hm]
    show (match alookup (batchQuery store pid s.lastKeys) key with
      | some e => Except.ok (e,
          { cache := batchQuery store pid s.lastKeys, lastKeys := s.lastKeys },
          [s.lastKeys])
      | none =>
        (Except.error "KeyError" :
          Except String (E × ReaderState K E × List (List K)))) =
      Except.ok (store pid key,
        { cache := batchQuery store pid s.lastKeys, lastKeys := s.lastKeys },
        [s.lastKeys])
    rw [alookup_batchQuery store pid s.lastKeys key hm]
  · intro hc hm
    unfold getAnnotations
    rw [hc, if_neg hm]
    rfl

/-- C1 witness: with cache entry for key 5 and scan batch 1, 2, 3 over the
store mapping each key k to k + 1, key 5 hits the cache, key 2 triggers the
batch query and cache rebuild, and key 7 is answered by a single-key
query. -/
theorem getAnnotations_cache_policy_witness :
    getAnnotations (fun (_ : Nat) (k : Nat) => k + 1) 0
      ⟨[(5, 99)], [1, 2, 3]⟩ 5 = .ok (99, ⟨[(5, 99)], [1, 2, 3]⟩, []) ∧
    getAnnotations (fun (_ : Nat) (k : Nat) => k + 1) 0
      ⟨[(5, 99)], [1, 2, 3]⟩ 2 =
      .ok (3, ⟨[(1, 2), (2, 3), (3, 4)], [1, 2, 3]⟩, [[1, 2, 3]]) ∧
    getAnnotations (fun (_ : Nat) (k : Nat) => k + 1) 0
      ⟨[(5, 99)], [1, 2, 3]⟩ 7 = .ok (8, ⟨[(5, 99)], [1, 2, 3]⟩, [[7]]) := by
  refine ⟨?_, ?_, ?_⟩
  · exact (getAnnotations_cache_policy (fun _ k => k + 1) 0 ⟨[(5, 99)], [1, 2, 3]⟩ 5).1
      99 (by decide)
  · exact ((getAnnotations_cache_policy (fun _ k => k + 1) 0 ⟨[(5, 99)], [1, 2, 3]⟩ 2).2.1
      (by decide) (by decide)).1
  · exact (getAnnotations_cache_policy (fun _ k => k + 1) 0 ⟨[(5, 99)], [1, 2, 3]⟩ 7).2.2
      (by decide) (by decide)

lemma save_check_iff (res : JVal) (s : Option Int)
    (h : response_status res = .ok s) :
    (save_status_check res = .ok () ↔ (s = some 0 ∨ s = some 2)) := by
  have hsave : save_status_check res =
      (if s = some 0 ∨ s = some 2 then Except.ok ()
       else Except.error "Error saving annotation data to ApertureDB") := by
    unfold save_status_check
    rw [h]
  rw [hsave]
  by_cases hs : s = some 0 ∨ s = some 2
  · rw [if_pos hs]
    simp [hs]
  · rw [if_neg hs]
    simp [hs]

lemma delete_check_iff (res : JVal) (s : Option Int)
    (h : response_status res = .ok s) :
    (delete_status_check res = .ok () ↔ (s = some 0 ∨ s = some 2)) := by
  have hdel : delete_status_check res =
      (if s = some 0 ∨ s = some 2 then Except.ok ()
       else Except.error "Error deleting annotation data from ApertureDB") := by
    unfold delete_status_check
    rw [h]
  rw [hdel]
  by_cases hs : s = some 0 ∨ s = some 2
  · rw [if_pos hs]
    simp [hs]
  · rw [if_neg hs]
    simp [hs]

/-- C9: for any store response whose computed status is s, the save
mutation check and the delete check succeed exactly when s is 0 or 2, and
raise otherwise; in particular status 2 on the delete path is success. -/
theorem status_zero_or_two_accepted (res : JVal) (s : Option Int)
    (h : response_status res = .ok s) :
    (save_status_check res = .ok () ↔ (s = some 0 ∨ s = some 2)) ∧
    (delete_status_check res = .ok () ↔ (s = some 0 ∨ s = some 2)) :=
  ⟨save_check_iff res s h, delete_check_iff res s h⟩

/-- C9 witness: a response reporting status 2 passes both the save check
and the delete check, so deleting a never-synced annotation is no error. -/
theorem status_zero_or_two_accepted_witness :
    response_status (.obj [("status", .num 2)]) = .ok (some 2) ∧
    save_status_check (.obj [("status", .num 2)]) = .ok () ∧
    delete_status_check (.obj [("status", .num 2)]) = .ok () := by
  have h : response_status (JVal.obj [("status", JVal.num 2)]) = .ok (some 2) := rfl
  have h2 := status_zero_or_two_accepted (JVal.obj [("status", JVal.num 2)]) (some 2) h
  exact ⟨h, h2.1.mpr (Or.inr rfl), h2.2.mpr (Or.inr rfl)⟩

lemma mapM_id_map_some (l : List Int) :
    (l.map some).mapM (fun x => x) = some l := by
  induction l with
  | nil => rfl
  | cons n rest ih =>
    rw [List.map_cons, List.mapM_cons, ih]
    rfl

lemma pymax_all_some (n : Int) (ns : List Int) :
    pymax ((n :: ns).map some) = .ok (some (intMaxList n ns)) := by
  cases ns with
  | nil => rfl
  | cons m rest =>
    show pymax (some n :: (m :: rest).map some) = .ok (some (intMaxList n (m :: rest)))
    unfold pymax
    rw [List.map_cons]
    show (match some n, ((some m :: rest.map some) : List (Option Int)).mapM (fun x => x) with
      | some n2, some ns2 => Except.ok (some (intMaxList n2 ns2))
      | _, _ =>
        (Except.error "TypeError: cannot compare NoneType" :
          Except String (Option Int))) = Except.ok (some (intMaxList n (m :: rest)))
    rw [show ((some m :: rest.map some) : List (Option Int)).mapM (fun x => x) =
      some (m :: rest) from mapM_id_map_some (m :: rest)]

lemma response_status_arr_max (xs : List JVal) (n : Int) (ns : List Int)
    (h : response_status_list xs = .ok ((n :: ns).map some)) :
    response_status (.arr xs) = .ok (some (intMaxList n ns)) := by
  show (match response_status_list xs with
    | Except.error e => (Except.error e : Except String (Option Int))
    | Except.ok ss => pymax ss) = Except.ok (some (intMaxList n ns))
  rw [h]
  exact pymax_all_some n ns

lemma response_status_obj_status (fields : List (String × JVal)) (n : Int)
    (h : alookup fields "status" = some (.num n)) :
    response_status (.obj fields) = .ok (some n) := by
  show (match alookup fields "status" with
    | some (JVal.num n2) => Except.ok (some n2)
    | some _ => (Except.error "non-integer status value" : Except String (Option Int))
    | none => response_status_first fields) = Except.ok (some n)
  rw [h]

lemma response_status_obj_first (k : String) (v : JVal)
    (rest : List (String × JVal))
    (h : alookup ((k, v) :: rest) "status" = none) :
    response_status (.obj ((k, v) :: rest)) = response_status v := by
  show (match alookup ((k, v) :: rest) "status" with
    | some (JVal.num n2) => Except.ok (some n2)
    | some _ => (Except.error "non-integer status value" : Except String (Option Int))
    | none => response_status_first ((k, v) :: rest)) = response_status v
  rw [h]
  rfl

/-- C10 counterexample: in the batch below the first command reports
status -1, outside the accepted set 0 or 2, yet the computed batch status
is the maximum 2 and the save check succeeds — a failing command can be
masked, so the batched call does not fail whenever some command's status
is outside the accepted set. -/
theorem response_status_masking_cex :
    response_status (.obj [("status", .num (-1))]) = .ok (some (-1)) ∧
    ((some (-1) : Option Int) = some 0 ∨ (some (-1) : Option Int) = some 2) = False ∧
    response_status
      (.arr [.obj [("status", .num (-1))], .obj [("status", .num 2)]]) =
      .ok (some 2) ∧
    save_status_check
      (.arr [.obj [("status", .num (-1))], .obj [("status", .num 2)]]) =
      .ok () := by
  refine ⟨rfl, ?_, rfl, rfl⟩
  simp

/-- C10 amended: a list response's status is the maximum of its elements'
statuses (when the list is non-empty and every element status is an
integer); an object's status is its status key when present and the status
of its first value otherwise; consequently a batched call fails exactly
when that maximum is outside the accepted set — a command's failing status
below the maximum is masked. -/
theorem response_status_spec :
    (∀ (xs : List JVal) (n : Int) (ns : List Int),
      response_status_list xs = .ok ((n :: ns).map some) →
      response_status (.arr xs) = .ok (some (intMaxList n ns))) ∧
    (∀ (fields : List (String × JVal)) (n : Int),
      alookup fields "status" = some (.num n) →
      response_status (.obj fields) = .ok (some n)) ∧
    (∀ (k : String) (v : JVal) (rest : List (String × JVal)),
      alookup ((k, v) :: rest) "status" = none →
      response_status (.obj ((k, v) :: rest)) = response_status v) ∧
    (∀ (xs : List JVal) (n : Int) (ns : List Int),
      response_status_list xs = .ok ((n :: ns).map some) →
      (save_status_check (.arr xs) = .ok () ↔
        (intMaxList n ns = 0 ∨ intMaxList n ns = 2))) := by
  refine ⟨response_status_arr_max, response_status_obj_status,
    response_status_obj_first, ?_⟩
  intro xs n ns h
  have h1 := response_status_arr_max xs n ns h
  rw [save_check_iff (.arr xs) (some (intMaxList n ns)) h1]
  simp

/-- C10 witness: for a batch reporting statuses 1 and 3 the computed
status is 3; a status object yields its own status; an object without a
status key yields its first value's status; and the batch with maximum 3
fails the save check. -/
theorem response_status_spec_witness :
    response_status (.arr [.obj [("status", .num 1)], .obj [("status", .num 3)]]) =
      .ok (some 3) ∧
    response_status (.obj [("res", .str "x"), ("status", .num 7)]) = .ok (some 7) ∧
    response_status (.obj [("FindImage", .obj [("status", .num 0)])]) =
      response_status (.obj [("status", .num 0)]) ∧
    (save_status_check
      (.arr [.obj [("status", .num 1)], .obj [("status", .num 3)]]) = .ok () ↔
      ((3 : Int) = 0 ∨ (3 : Int) = 2)) := by
  refine ⟨?_, ?_, ?_, ?_⟩
  · exact (response_status_spec.1
      [.obj [("status", .num 1)], .obj [("status", .num 3)]] 1 [3] rfl).trans rfl
  · exact response_status_spec.2.1 [("res", .str "x"), ("status", .num 7)] 7 rfl
  · exact response_status_spec.2.2.1 "FindImage" (.obj [("status", .num 0)]) [] rfl
  · have h := response_status_spec.2.2.2
      [.obj [("status", .num 1)], .obj [("status", .num 3)]] 1 [3] rfl
    rw [h]
    norm_num [intMaxList]

lemma scanFrom_eq {K : Type} (store : List K) (limit : Option Nat) (offset : Nat) :
    scanFrom store limit offset =
      if scanCont limit offset then
        (if ((store.drop offset).take 100).isEmpty then []
         else (store.drop offset).take 100 ++ scanFrom store limit (offset + 100))
      else [] := by
  conv_lhs => unfold scanFrom

lemma scanFrom_suffix {K : Type} (store : List K) (limit : Option Nat) (offset : Nat) :
    ∃ t, store.drop offset = scanFrom store limit offset ++ t := by
  by_cases hc : scanCont limit offset = true
  · by_cases hp : ((store.drop offset).take 100).isEmpty = true
    · rw [scanFrom_eq, if_pos hc, if_pos hp]
      exact ⟨store.drop offset, rfl⟩
    · rw [scanFrom_eq, if_pos hc, if_neg hp]
      obtain ⟨t, ht⟩ := scanFrom_suffix store limit (offset + 100)
      refine ⟨t, ?_⟩
      calc store.drop offset
          = (store.drop offset).take 100 ++ (store.drop offset).drop 100 :=
            (List.take_append_drop _ _).symm
        _ = (store.drop offset).take 100 ++ store.drop (offset + 100) := by
            rw [List.drop_drop]
        _ = (store.drop offset).take 100 ++ (scanFrom store limit (offset + 100) ++ t) := by
            rw [ht]
        _ = ((store.drop offset).take 100 ++ scanFrom store limit (offset + 100)) ++ t :=
            (List.append_assoc _ _ _).symm
  · rw [scanFrom_eq, if_neg hc]
    exact ⟨store.drop offset, rfl⟩
termination_by store.length - offset
decreasing_by
  have hlt : offset < store.length := by
    by_contra hge
    apply hp
    rw [List.drop_eq_nil_of_le (Nat.le_of_not_lt hge)]
    rfl
  omega

lemma scanFrom_length_le {K : Type} (store : List K) (l : Nat) (hl : 0 < l)
    (offset : Nat) : (scanFrom store (some l) offset).length ≤ l + 99 - offset := by
  by_cases hc : scanCont (some l) offset = true
  · by_cases hp : ((store.drop offset).take 100).isEmpty = true
    · rw [scanFrom_eq, if_pos hc, if_pos hp]
      simp
    · rw [scanFrom_eq, if_pos hc, if_neg hp]
      have hoff : offset < l := by
        unfold scanCont at hc
        simp only [Bool.or_eq_true, beq_iff_eq, decide_eq_true_eq] at hc
        rcases hc with h0 | h2
        · omega
        · exact h2
      have hrec := scanFrom_length_le store l hl (offset + 100)
      rw [List.length_append]
      have htake : ((store.drop offset).take 100).length ≤ 100 :=
        List.length_take_le _ _
      omega
  · rw [scanFrom_eq, if_neg hc]
    simp
termination_by store.length - offset
decreasing_by
  have hlt : offset < store.length := by
    by_contra hge
    apply hp
    rw [List.drop_eq_nil_of_le (Nat.le_of_not_lt hge)]
    rfl
  omega

lemma scanPages_nodup {K : Type} (store : List K) (limit : Option Nat)
    (h : store.Nodup) : (scanPages store limit).Nodup := by
  obtain ⟨t, ht⟩ := scanFrom_suffix store limit 0
  rw [List.drop_zero] at ht
  have hsub : List.Sublist (scanFrom store limit 0) store := by
    conv_rhs => rw [ht]
    exact List.sublist_append_left _ _
  exact h.sublist hsub

/-- C3 counterexample: with limit 1 and a store holding two matching keys,
one scan yields both keys — more than limit — because the offset test runs
only between whole pages. -/
theorem scan_limit_cex :
    scanPages [0, 1] (some 1) = ([0, 1] : List Nat) ∧
    ¬ ((scanPages [0, 1] (some 1) : List Nat).length ≤ 1) := by
  have h : scanPages [0, 1] (some 1) = ([0, 1] : List Nat) := by
    rw [scanPages, scanFrom_eq, if_pos (by decide), if_neg (by decide)]
    rw [scanFrom_eq, if_neg (by decide)]
    rfl
  refine ⟨h, ?_⟩
  rw [h]
  decide

/-- C3 amended: one scan with a positive limit yields at most limit plus
page-size-minus-one keys (the limit is enforced only at page boundaries),
and never yields the same key twice when the store's keys are distinct. -/
theorem scan_limit_bound {K : Type} (store : List K) (l : Nat) (hl : 0 < l) :
    (scanPages store (some l)).length ≤ l + 99 ∧
    (store.Nodup → (scanPages store (some l)).Nodup) := by
  constructor
  · have h := scanFrom_length_le store l hl 0
    rw [scanPages]
    omega
  · exact fun h => scanPages_nodup store (some l) h

/-- C3 witness: a two-key store scanned with limit 5 yields two distinct
keys, within the bound. -/
theorem scan_limit_bound_witness :
    (scanPages [10, 20] (some 5) : List Nat).length ≤ 5 + 99 ∧
    (scanPages [10, 20] (some 5) : List Nat).Nodup := by
  have h := scan_limit_bound [10, 20] 5 (by decide)
  exact ⟨h.1, h.2 (by decide)⟩

lemma alookup_dictInsert {K V : Type} [DecidableEq K] (m : List (K × V)) (k : K)
    (v : V) (k2 : K) :
    alookup (dictInsert m k v) k2 = if k2 = k then some v else alookup m k2 := by
  induction m with
  | nil =>
    show (if k = k2 then some v else none) = _
    by_cases hk : k2 = k
    · rw [if_pos hk.symm, if_pos hk]
    · rw [if_neg (fun he => hk he.symm), if_neg hk]
      rfl
  | cons q rest ih =>
    obtain ⟨k1, v1⟩ := q
    by_cases h1 : k1 = k
    · rw [show dictInsert ((k1, v1) :: rest) k v = (k, v) :: rest from by
        simp [dictInsert, h1]]
      show (if k = k2 then some v else alookup rest k2) = _
      by_cases hk : k2 = k
      · rw [if_pos hk.symm, if_pos hk]
      · rw [if_neg (fun he => hk he.symm), if_neg hk]
        show _ = (if k1 = k2 then some v1 else alookup rest k2)
        rw [if_neg (by rw [h1]; exact fun he => hk he.symm)]
    · rw [show dictInsert ((k1, v1) :: rest) k v = (k1, v1) :: dictInsert rest k v from by
        simp [dictInsert, h1]]
      show (if k1 = k2 then some v1 else alookup (dictInsert rest k v) k2) = _
      by_cases h2 : k1 = k2
      · rw [if_pos h2]
        have hk : ¬ k2 = k := fun he => h1 (h2.trans he)
        rw [if_neg hk]
        show _ = (if k1 = k2 then some v1 else alookup rest k2)
        rw [if_pos h2]
      · rw [if_neg h2, ih]
        by_cases hk : k2 = k
        · rw [if_pos hk, if_pos hk]
        · rw [if_neg hk, if_neg hk]
          show _ = (if k1 = k2 then some v1 else alookup rest k2)
          rw [if_neg h2]

lemma alookup_eq_none {K V : Type} [DecidableEq K] (m : List (K × V)) (k : K)
    (h : k ∉ m.map Prod.fst) : alookup m k = none := by
  induction m with
  | nil => rfl
  | cons p rest ih =>
    simp only [List.map_cons, List.mem_cons] at h
    push_neg at h
    obtain ⟨k1, v1⟩ := p
    show (if k1 = k then some v1 else alookup rest k) = none
    rw [if_neg (fun he => h.1 he.symm)]
    exact ih h.2

lemma alookup_dictUpdate {K V : Type} [DecidableEq K] (u : List (K × V))
    (base : List (K × V)) (hu : (u.map Prod.fst).Nodup) (k : K) :
    alookup (dictUpdate base u) k = oalt (alookup u k) (alookup base k) := by
  induction u generalizing base with
  | nil =>
    show alookup base k = oalt none (alookup base k)
    rfl
  | cons p rest ih =>
    obtain ⟨k1, v1⟩ := p
    simp only [List.map_cons, List.nodup_cons] at hu
    rw [show dictUpdate base ((k1, v1) :: rest) =
      dictUpdate (dictInsert base k1 v1) rest from rfl]
    rw [ih (dictInsert base k1 v1) hu.2, alookup_dictInsert]
    show _ = oalt (if k1 = k then some v1 else alookup rest k) (alookup base k)
    by_cases hk : k = k1
    · have hr : alookup rest k = none := by
        apply alookup_eq_none
        rw [hk]
        exact hu.1
      rw [hr, if_pos hk, if_pos hk.symm]
      rfl
    · rw [if_neg hk, if_neg (fun he => hk he.symm)]

/-- C4 counterexample: a user constraint on width replaces the internal
width constraint: with user expression width less-than 5 the merged
constraints bind width to the user value, not to the internal
greater-than 0 requirement — `dict.update` lets the user override it. -/
theorem constraints_override_cex :
    alookup (iterkeys_constraints (some [("width", JVal.arr [.str "<", .num 5])]))
      "width" = some (JVal.arr [.str "<", .num 5]) ∧
    some (JVal.arr [.str "<", .num 5]) ≠ some (JVal.arr [.str ">", .num 0]) := by
  refine ⟨rfl, ?_⟩
  intro h
  injection h with h1
  injection h1 with h2
  injection h2 with h3 h4
  injection h3 with h5
  exact absurd h5 (by decide)

/-- C4 amended: every page query carries the internal width/height
constraints updated with the user expression, user entries taking
precedence on key collision: a key bound by the user expression maps to
the user value, and the internal width/height requirements survive exactly
when the user expression does not bind those keys. -/
theorem constraints_merge_spec (u : List (String × JVal))
    (hu : (u.map Prod.fst).Nodup) :
    (∀ k, alookup (iterkeys_constraints (some u)) k =
      oalt (alookup u k) (alookup internal_constraints k)) ∧
    (alookup u "width" = none →
      alookup (iterkeys_constraints (some u)) "width" =
        some (JVal.arr [.str ">", .num 0])) ∧
    (alookup u "height" = none →
      alookup (iterkeys_constraints (some u)) "height" =
        some (JVal.arr [.str ">", .num 0])) := by
  have hmain : ∀ k, alookup (iterkeys_constraints (some u)) k =
      oalt (alookup u k) (alookup internal_constraints k) :=
    fun k => alookup_dictUpdate u internal_constraints hu k
  refine ⟨hmain, ?_, ?_⟩
  · intro hw
    rw [hmain "width", hw]
    rfl
  · intro hh
    rw [hmain "height", hh]
    rfl

/-- C4 witness: a user expression constraining only an unrelated key keeps
both internal constraints and contributes its own. -/
theorem constraints_merge_spec_witness :
    alookup (iterkeys_constraints (some [("adb_image_sha", JVal.str "x")]))
      "adb_image_sha" = some (JVal.str "x") ∧
    alookup (iterkeys_constraints (some [("adb_image_sha", JVal.str "x")]))
      "width" = some (JVal.arr [.str ">", .num 0]) ∧
    alookup (iterkeys_constraints (some [("adb_image_sha", JVal.str "x")]))
      "height" = some (JVal.arr [.str ">", .num 0]) := by
  have h := constraints_merge_spec [("adb_image_sha", JVal.str "x")] (by simp)
  refine ⟨?_, h.2.1 rfl, h.2.2 rfl⟩
  rw [h.1 "adb_image_sha"]
  rfl
